import Mathlib

/-!
Shallow embedding of `src/network_mcp.py`: the device connection manager,
the command executor (`show_version`), and the neighbor discovery engine
(`discover_neighbors_lldp`, `discover_neighbors_cdp`,
`discover_neighbors_combined`), together with theorems settling the claims
about dedup semantics, failure shapes, caching, and connection concurrency.

Python dictionaries are embedded as insertion-ordered association lists,
Python `None`-or-string values as `Option String`, and the JSON-like result
payloads as the inductive `JVal`.  Blocking calls (connect, disconnect,
parse, execute) are oracles passed as arguments, and the list of network
calls an operation performs is returned explicitly.
-/

namespace NetworkMCP

/-- Lookup in a Python dict embedded as an insertion-ordered association
list: first binding for the key wins (a Python dict has at most one). -/
def dictLookup {β : Type} (k : String) : List (String × β) → Option β
  | [] => none
  | (a, b) :: rest => if a = k then some b else dictLookup k rest

/-- Removal of a key from an embedded Python dict (`del d[k]`). -/
def dictRemove {β : Type} (k : String) (l : List (String × β)) :
    List (String × β) :=
  l.filter (fun p => decide (p.1 ≠ k))

/-- Concatenation of the lists produced for each element, in order: the
embedding of a nested Python `for` loop that appends to one output list. -/
def concatMap {α β : Type} (f : α → List β) : List α → List β
  | [] => []
  | x :: xs => f x ++ concatMap f xs

/-- Python truthiness of a string-or-None value: `None` and `""` are falsy. -/
def pyTruthy : Option String → Bool
  | none => false
  | some s => s ≠ ""

/-- Python `a or b` on string-or-None values: `b` when `a` is falsy. -/
def pyOr (a b : Option String) : Option String :=
  if pyTruthy a then a else b

/-- Python `s.split(chr(10))[0]`: the prefix of `s` before the first
newline. -/
def firstLine (s : String) : String :=
  String.mk (s.data.takeWhile (fun c => c ≠ '\n'))

/-- Python `s.strip()`: remove leading and trailing whitespace. -/
def pyStrip (s : String) : String :=
  String.mk
    (((s.data.dropWhile Char.isWhitespace).reverse.dropWhile
        Char.isWhitespace).reverse)

/-- A synthesized neighbor record: a Python dict from field name to a
string-or-None value, in insertion order. -/
abbrev NeighborRec := List (String × Option String)

/-- `neighbor[k]` on a neighbor record (every built record carries its
keys, so the missing-key case never arises on program values). -/
def pyIndex (r : NeighborRec) (k : String) : Option String :=
  (dictLookup k r).join

/-- The dedup key built at lines 336-340 of the source: the triple
`(neighbor["local_interface"], neighbor["remote_device"],
neighbor["remote_interface"])`. -/
def dedupKey (r : NeighborRec) : Option String × Option String × Option String :=
  (pyIndex r "local_interface", pyIndex r "remote_device",
    pyIndex r "remote_interface")

/-- The dedup loop of `discover_neighbors_combined` (lines 332-343):
`unique_set` is the set of keys already seen, `deduped` the output being
appended to. -/
def dedupGo :
    List NeighborRec → List (Option String × Option String × Option String) →
      List NeighborRec → List NeighborRec
  | [], _, deduped => deduped
  | n :: rest, seen, deduped =>
    if dedupKey n ∈ seen then dedupGo rest seen deduped
    else dedupGo rest (dedupKey n :: seen) (deduped ++ [n])

/-- The full combine-and-deduplicate step on an already concatenated list. -/
def dedupNeighbors (combined : List NeighborRec) : List NeighborRec :=
  dedupGo combined [] []

/-- Modelled from the spec: scan the list keeping only the first record
seen for each dedup key, preserving first-seen order. -/
def specKeepFirst : List NeighborRec → List NeighborRec
  | [] => []
  | x :: xs =>
    x :: specKeepFirst (xs.filter (fun y => decide (dedupKey y ≠ dedupKey x)))
termination_by l => l.length
decreasing_by
  simp only [List.length_cons]
  exact Nat.lt_succ_of_le (List.length_filter_le _ _)

/-- Structural helper: the first-seen scan with an explicit seen set. -/
def keepFirstAux :
    List NeighborRec → List (Option String × Option String × Option String) →
      List NeighborRec
  | [], _ => []
  | x :: xs, seen =>
    if dedupKey x ∈ seen then keepFirstAux xs seen
    else x :: keepFirstAux xs (dedupKey x :: seen)

theorem dedupGo_eq_keepFirstAux (xs : List NeighborRec)
    (s : List (Option String × Option String × Option String))
    (acc : List NeighborRec) :
    dedupGo xs s acc = acc ++ keepFirstAux xs s := by
  induction xs generalizing s acc with
  | nil => simp [dedupGo, keepFirstAux]
  | cons x xs ih =>
    simp only [dedupGo, keepFirstAux]
    by_cases hx : dedupKey x ∈ s
    · rw [if_pos hx, if_pos hx]
      exact ih s acc
    · rw [if_neg hx, if_neg hx, ih _ _]
      simp

theorem keepFirstAux_congr (xs : List NeighborRec)
    (s t : List (Option String × Option String × Option String))
    (h : ∀ k, k ∈ s ↔ k ∈ t) : keepFirstAux xs s = keepFirstAux xs t := by
  induction xs generalizing s t with
  | nil => rfl
  | cons x xs ih =>
    simp only [keepFirstAux]
    by_cases hx : dedupKey x ∈ s
    · rw [if_pos hx, if_pos ((h _).mp hx)]
      exact ih s t h
    · rw [if_neg hx, if_neg (fun hc => hx ((h _).mpr hc))]
      have := ih (dedupKey x :: s) (dedupKey x :: t)
        (fun k => by simp only [List.mem_cons]; rw [h k])
      rw [this]

theorem keepFirstAux_cons_seen (xs : List NeighborRec)
    (k : Option String × Option String × Option String)
    (s : List (Option String × Option String × Option String)) :
    keepFirstAux xs (k :: s)
      = keepFirstAux (xs.filter (fun y => decide (dedupKey y ≠ k))) s := by
  induction xs generalizing s with
  | nil => rfl
  | cons x xs ih =>
    by_cases hk : dedupKey x = k
    · have hmem : dedupKey x ∈ k :: s := by simp [hk]
      have hfilt : (List.filter (fun y => decide (dedupKey y ≠ k)) (x :: xs))
          = List.filter (fun y => decide (dedupKey y ≠ k)) xs := by
        simp [List.filter, hk]
      rw [hfilt]
      simp only [keepFirstAux, if_pos hmem]
      exact ih s
    · have hfilt : (List.filter (fun y => decide (dedupKey y ≠ k)) (x :: xs))
          = x :: List.filter (fun y => decide (dedupKey y ≠ k)) xs := by
        simp [List.filter, hk]
      rw [hfilt]
      by_cases hs : dedupKey x ∈ s
      · have hmem : dedupKey x ∈ k :: s := List.mem_cons_of_mem _ hs
        simp only [keepFirstAux, if_pos hmem, if_pos hs]
        exact ih s
      · have hmem : dedupKey x ∉ k :: s := by
          simp only [List.mem_cons]
          rintro (h | h)
          · exact hk h
          · exact hs h
        simp only [keepFirstAux, if_neg hmem, if_neg hs]
        have hswap : keepFirstAux xs (dedupKey x :: k :: s)
            = keepFirstAux xs (k :: dedupKey x :: s) :=
          keepFirstAux_congr xs _ _ (fun k2 => by
            simp only [List.mem_cons]
            constructor
            · rintro (h | h | h)
              · exact Or.inr (Or.inl h)
              · exact Or.inl h
              · exact Or.inr (Or.inr h)
            · rintro (h | h | h)
              · exact Or.inr (Or.inl h)
              · exact Or.inl h
              · exact Or.inr (Or.inr h))
        rw [hswap, ih (dedupKey x :: s)]

theorem keepFirstAux_nil_eq_specKeepFirst (xs : List NeighborRec) :
    keepFirstAux xs [] = specKeepFirst xs := by
  generalize hn : xs.length = n
  induction n using Nat.strong_induction_on generalizing xs with
  | _ n ih =>
    cases xs with
    | nil => simp [specKeepFirst, keepFirstAux]
    | cons x xs =>
      rw [specKeepFirst]
      have hmem : dedupKey x ∉
          ([] : List (Option String × Option String × Option String)) := by
        simp
      simp only [keepFirstAux, if_neg hmem]
      rw [keepFirstAux_cons_seen]
      have hlen : (xs.filter
          (fun y => decide (dedupKey y ≠ dedupKey x))).length < n := by
        subst hn
        simp only [List.length_cons]
        exact Nat.lt_succ_of_le (List.length_filter_le _ _)
      rw [ih _ hlen _ rfl]

theorem keepFirstAux_key_nodup (xs : List NeighborRec)
    (s : List (Option String × Option String × Option String)) :
    ((keepFirstAux xs s).map dedupKey).Nodup
      ∧ ∀ k ∈ s, k ∉ (keepFirstAux xs s).map dedupKey := by
  induction xs generalizing s with
  | nil =>
    refine ⟨List.nodup_nil, ?_⟩
    intro k _
    simp [keepFirstAux]
  | cons x xs ih =>
    simp only [keepFirstAux]
    by_cases hx : dedupKey x ∈ s
    · rw [if_pos hx]
      exact ih s
    · rw [if_neg hx]
      obtain ⟨h1, h2⟩ := ih (dedupKey x :: s)
      constructor
      · simp only [List.map_cons, List.nodup_cons]
        exact ⟨h2 _ (List.mem_cons_self _ _), h1⟩
      · intro k hk
        simp only [List.map_cons, List.mem_cons]
        rintro (rfl | hmem)
        · exact hx hk
        · exact h2 k (List.mem_cons_of_mem _ hk) hmem

theorem keepFirstAux_sublist (xs : List NeighborRec)
    (s : List (Option String × Option String × Option String)) :
    (keepFirstAux xs s).Sublist xs := by
  induction xs generalizing s with
  | nil => simp [keepFirstAux]
  | cons x xs ih =>
    simp only [keepFirstAux]
    by_cases hx : dedupKey x ∈ s
    · rw [if_pos hx]
      exact List.Sublist.cons x (ih s)
    · rw [if_neg hx]
      exact List.Sublist.cons₂ x (ih _)

/-- One neighbor entry of the raw LLDP parse: the keys the source reads
via `.get`, each possibly absent or `None`. -/
structure LldpNeighborInfo where
  system_name : Option String
  neighbor_id : Option String
  port_id : Option String
  port_description : Option String
  management_address : Option String
  system_description : Option String

/-- One port bucket of the raw LLDP parse: `port_data.get("neighbors", {})`
as an ordered dict from neighbor id to entry. -/
structure LldpPortData where
  neighbors : List (String × LldpNeighborInfo)

/-- One interface bucket of the raw LLDP parse:
`intf_data.get("port_id", {})` as an ordered dict. -/
structure LldpIntfData where
  port_id : List (String × LldpPortData)

/-- The raw LLDP parse output; `interfaces = none` embeds a payload on
which `"interfaces" in lldp_output` is false. -/
structure LldpRaw where
  interfaces : Option (List (String × LldpIntfData))

/-- One entry of the raw CDP parse `cdp_output["index"]`: the keys the
source reads, with `management_addresses` as the insertion-ordered key
list of that dict (only its keys are consumed). -/
structure CdpEntry where
  local_interface : Option String
  device_id : Option String
  port_id : Option String
  management_addresses : List String
  platform : Option String

/-- The raw CDP parse output; `index = none` embeds a payload on which
`"index" in cdp_output` is false. -/
structure CdpRaw where
  index : Option (List (String × CdpEntry))

/-- The LLDP record built by `discover_neighbors_lldp` (lines 170-175):
four fields. -/
def mkLldpBasicRecord (local_intf : String) (info : LldpNeighborInfo) :
    NeighborRec :=
  [("protocol", some "lldp"),
   ("local_interface", some local_intf),
   ("remote_device", pyOr info.system_name info.neighbor_id),
   ("remote_interface", pyOr info.port_id info.port_description)]

/-- The CDP record built by `discover_neighbors_cdp` (lines 228-233):
four fields. -/
def mkCdpBasicRecord (entry : CdpEntry) : NeighborRec :=
  [("protocol", some "cdp"),
   ("local_interface", entry.local_interface),
   ("remote_device", entry.device_id),
   ("remote_interface", entry.port_id)]

/-- The LLDP record built by `discover_neighbors_combined` (lines 298-305):
six fields, defaulting management address to `"unknown"` and taking the
first line of the system description as platform. -/
def mkLldpCombinedRecord (local_intf : String) (info : LldpNeighborInfo) :
    NeighborRec :=
  [("protocol", some "lldp"),
   ("local_interface", some local_intf),
   ("remote_device", pyOr info.system_name info.neighbor_id),
   ("remote_interface", pyOr info.port_id info.port_description),
   ("management_address", some (info.management_address.getD "unknown")),
   ("platform", some (firstLine (info.system_description.getD "")))]

/-- The CDP record built by `discover_neighbors_combined` (lines 316-324):
six fields, taking the first management-address key in supplied order
(`mgmt_ips[0]`) or `"unknown"` when there are none, and stripping the
platform string. -/
def mkCdpCombinedRecord (entry : CdpEntry) : NeighborRec :=
  [("protocol", some "cdp"),
   ("local_interface", entry.local_interface),
   ("remote_device", entry.device_id),
   ("remote_interface", entry.port_id),
   ("management_address",
     some (match entry.management_addresses with
           | [] => "unknown"
           | ip :: _ => ip)),
   ("platform", some (pyStrip (entry.platform.getD "")))]

/-- The LLDP extraction loop of `discover_neighbors_lldp` (lines 164-175). -/
def lldpExtractBasic (raw : LldpRaw) : List NeighborRec :=
  match raw.interfaces with
  | none => []
  | some intfs =>
    concatMap (fun li =>
      concatMap (fun pd =>
        pd.2.neighbors.map (fun ni => mkLldpBasicRecord li.1 ni.2))
        li.2.port_id)
      intfs

/-- The CDP extraction loop of `discover_neighbors_cdp` (lines 225-233). -/
def cdpExtractBasic (raw : CdpRaw) : List NeighborRec :=
  match raw.index with
  | none => []
  | some idx => idx.map (fun e => mkCdpBasicRecord e.2)

/-- The LLDP extraction loop of `discover_neighbors_combined`
(lines 292-305). -/
def lldpExtractCombined (raw : LldpRaw) : List NeighborRec :=
  match raw.interfaces with
  | none => []
  | some intfs =>
    concatMap (fun li =>
      concatMap (fun pd =>
        pd.2.neighbors.map (fun ni => mkLldpCombinedRecord li.1 ni.2))
        li.2.port_id)
      intfs

/-- The CDP extraction loop of `discover_neighbors_combined`
(lines 313-324). -/
def cdpExtractCombined (raw : CdpRaw) : List NeighborRec :=
  match raw.index with
  | none => []
  | some idx => idx.map (fun e => mkCdpCombinedRecord e.2)

/-- Outcome of a blocking `device.parse(cmd)` call: structured data, the
empty-parse signal `SchemaEmptyParserError`, or any other raised fault. -/
inductive ParseOutcome (α : Type) where
  | ok (value : α)
  | emptyParse
  | fault (msg : String)

/-- The `lldp_neighbors` list of the combined discovery after the guarded
LLDP block (lines 287-309): filled only on a successful parse; the
empty-parse signal and any other fault leave it empty. -/
def lldpNeighborsOf : ParseOutcome LldpRaw → List NeighborRec
  | ParseOutcome.ok raw => lldpExtractCombined raw
  | ParseOutcome.emptyParse => []
  | ParseOutcome.fault _ => []

/-- The `cdp_neighbors` list of the combined discovery after the guarded
CDP block (lines 288-328). -/
def cdpNeighborsOf : ParseOutcome CdpRaw → List NeighborRec
  | ParseOutcome.ok raw => cdpExtractCombined raw
  | ParseOutcome.emptyParse => []
  | ParseOutcome.fault _ => []

/-- A JSON-serializable Python value as returned by the tools. -/
inductive JVal where
  | null
  | bool (b : Bool)
  | str (s : String)
  | nat (n : Nat)
  | arr (xs : List JVal)
  | obj (fields : List (String × JVal))

/-- A neighbor record as it appears in a JSON response. -/
def recToJ (r : NeighborRec) : JVal :=
  JVal.obj (r.map (fun p =>
    (p.1, match p.2 with
          | none => JVal.null
          | some s => JVal.str s)))

/-- A blocking call to the device layer, recorded in the order the
operation performs it. -/
inductive NetCall where
  | connect (device : String)
  | disconnect (device : String)
  | parse (device : String) (cmd : String)
  | execute (device : String) (cmd : String)
deriving DecidableEq

/-- The state of `DeviceConnectionManager`: `connections` is the
`self._connections` dict from device name to cached session, with each
session identified by the generation counter `nextId` that produced it. -/
structure ConnState where
  connections : List (String × Nat)
  nextId : Nat
deriving DecidableEq

/-- `DeviceConnectionManager.get_connection` (lines 31-37), sequentially:
on a cache hit, return the cached session with no network contact; on a
miss, perform the blocking connect (`cf = some e` embeds a connect call
that raises, which propagates to the caller before the cache is written)
and store the fresh session under the device name. -/
def get_connection (st : ConnState) (name : String) (cf : Option String) :
    Except String Nat × ConnState × List NetCall :=
  match dictLookup name st.connections with
  | some s => (Except.ok s, st, [])
  | none =>
    match cf with
    | some e => (Except.error e, st, [NetCall.connect name])
    | none =>
      (Except.ok st.nextId,
       { connections := st.connections ++ [(name, st.nextId)],
         nextId := st.nextId + 1 },
       [NetCall.connect name])

/-- `DeviceConnectionManager.cleanup_connection` (lines 39-42): when an
entry exists, perform the blocking disconnect and delete the entry; a
no-op otherwise. -/
def cleanup_connection (st : ConnState) (name : String) :
    ConnState × List NetCall :=
  match dictLookup name st.connections with
  | some _ =>
    ({ connections := dictRemove name st.connections, nextId := st.nextId },
     [NetCall.disconnect name])
  | none => (st, [])

/-- One sequential call against the connection manager. -/
inductive MgrOp where
  | get (name : String)
  | cleanup (name : String)
deriving DecidableEq

/-- Effect of one sequential manager call on the cache (connects assumed
to succeed). -/
def mgrStep (st : ConnState) : MgrOp → ConnState
  | MgrOp.get name => (get_connection st name none).2.1
  | MgrOp.cleanup name => (cleanup_connection st name).1

/-- A sequence of manager calls executed without interleaving. -/
def runOps (st : ConnState) : List MgrOp → ConnState
  | [] => st
  | op :: ops => runOps (mgrStep st op) ops

/-- `show_version` (lines 94-126).  Oracles: `cf` is the connect fault (if
the device must connect and the connect raises), `p` the outcome of
`device.parse "show version"`, `ex` the outcome of the raw
`device.execute "show version"` fallback.  A fault raised by the fallback
execute escapes the inner handler and is caught by the outer one, which
prefixes the message.  Returns the response payload, the updated cache,
and the blocking calls performed. -/
def show_version (inv : List String) (st : ConnState) (name : String)
    (cf : Option String) (p : ParseOutcome JVal) (ex : Except String String) :
    JVal × ConnState × List NetCall :=
  if name ∉ inv then
    (JVal.obj [("error", JVal.str ("Device not found: " ++ name))], st, [])
  else
    match get_connection st name cf with
    | (Except.error e, st2, calls) =>
      (JVal.obj [("success", JVal.bool false),
                 ("error", JVal.str ("Connection or execution error: " ++ e))],
       st2, calls)
    | (Except.ok _, st2, calls) =>
      let calls2 := calls ++ [NetCall.parse name "show version"]
      match p with
      | ParseOutcome.ok data =>
        (JVal.obj [("success", JVal.bool true), ("data", data)], st2, calls2)
      | ParseOutcome.emptyParse =>
        match ex with
        | Except.ok raw =>
          (JVal.obj [("success", JVal.bool true),
                     ("data", JVal.obj [("raw_output", JVal.str raw)]),
                     ("note", JVal.str "Could not parse, returning raw output")],
           st2, calls2 ++ [NetCall.execute name "show version"])
        | Except.error e =>
          (JVal.obj [("success", JVal.bool false),
                     ("error",
                      JVal.str ("Connection or execution error: " ++ e))],
           st2, calls2 ++ [NetCall.execute name "show version"])
      | ParseOutcome.fault e =>
        (JVal.obj [("success", JVal.bool false), ("error", JVal.str e)],
         st2, calls2)

/-- `discover_neighbors_lldp` (lines 128-186). -/
def discover_neighbors_lldp (inv : List String) (st : ConnState)
    (name : String) (cf : Option String) (p : ParseOutcome LldpRaw) :
    JVal × ConnState × List NetCall :=
  if name ∉ inv then
    (JVal.obj [("success", JVal.bool false),
               ("error", JVal.str ("Device not found: " ++ name))], st, [])
  else
    match get_connection st name cf with
    | (Except.error e, st2, calls) =>
      (JVal.obj [("success", JVal.bool false), ("error", JVal.str e)],
       st2, calls)
    | (Except.ok _, st2, calls) =>
      let calls2 := calls ++ [NetCall.parse name "show lldp neighbors detail"]
      match p with
      | ParseOutcome.ok raw =>
        (JVal.obj [("success", JVal.bool true), ("device", JVal.str name),
                   ("neighbors",
                    JVal.arr ((lldpExtractBasic raw).map recToJ))],
         st2, calls2)
      | ParseOutcome.emptyParse =>
        (JVal.obj [("success", JVal.bool true), ("device", JVal.str name),
                   ("neighbors", JVal.arr [])], st2, calls2)
      | ParseOutcome.fault e =>
        (JVal.obj [("success", JVal.bool false), ("error", JVal.str e)],
         st2, calls2)

/-- `discover_neighbors_cdp` (lines 189-244). -/
def discover_neighbors_cdp (inv : List String) (st : ConnState)
    (name : String) (cf : Option String) (p : ParseOutcome CdpRaw) :
    JVal × ConnState × List NetCall :=
  if name ∉ inv then
    (JVal.obj [("success", JVal.bool false),
               ("error", JVal.str ("Device not found: " ++ name))], st, [])
  else
    match get_connection st name cf with
    | (Except.error e, st2, calls) =>
      (JVal.obj [("success", JVal.bool false), ("error", JVal.str e)],
       st2, calls)
    | (Except.ok _, st2, calls) =>
      let calls2 := calls ++ [NetCall.parse name "show cdp neighbors detail"]
      match p with
      | ParseOutcome.ok raw =>
        (JVal.obj [("success", JVal.bool true), ("device", JVal.str name),
                   ("neighbors",
                    JVal.arr ((cdpExtractBasic raw).map recToJ))],
         st2, calls2)
      | ParseOutcome.emptyParse =>
        (JVal.obj [("success", JVal.bool true), ("device", JVal.str name),
                   ("neighbors", JVal.arr [])], st2, calls2)
      | ParseOutcome.fault e =>
        (JVal.obj [("success", JVal.bool false), ("error", JVal.str e)],
         st2, calls2)

/-- `discover_neighbors_combined` (lines 248-353): both protocol blocks
are individually guarded, their record lists are concatenated LLDP first
and deduplicated, and the call fails only when the name is unknown or the
connect raises. -/
def discover_neighbors_combined (inv : List String) (st : ConnState)
    (name : String) (cf : Option String) (lr : ParseOutcome LldpRaw)
    (cr : ParseOutcome CdpRaw) : JVal × ConnState × List NetCall :=
  if name ∉ inv then
    (JVal.obj [("success", JVal.bool false),
               ("error", JVal.str ("Device not found: " ++ name))], st, [])
  else
    match get_connection st name cf with
    | (Except.error e, st2, calls) =>
      (JVal.obj [("success", JVal.bool false), ("error", JVal.str e)],
       st2, calls)
    | (Except.ok _, st2, calls) =>
      let deduped := dedupNeighbors (lldpNeighborsOf lr ++ cdpNeighborsOf cr)
      (JVal.obj [("success", JVal.bool true), ("device", JVal.str name),
                 ("neighbors", JVal.arr (deduped.map recToJ)),
                 ("total_neighbors", JVal.nat deduped.length)],
       st2,
       calls ++ [NetCall.parse name "show lldp neighbors detail",
                 NetCall.parse name "show cdp neighbors detail"])

/-- Program counter of one task running `get_connection` concurrently:
`start` is before the membership check of line 32, `connecting` is after
that check and before the awaited blocking connect of line 34 (the
suspension point), `finished` is after the cache write of line 35 (or
after returning the cached entry). -/
inductive TaskPC where
  | start
  | connecting
  | finished

/-- Shared state of two tasks calling `get_connection` for the same
device name.  The cached value written at line 35 is the testbed device
object, which is determined by the name, so the cache is tracked as the
set of names present; `connectCalls` counts `device.connect` calls. -/
structure RaceState where
  cacheNames : List String
  pc1 : TaskPC
  pc2 : TaskPC
  connectCalls : Nat

/-- One scheduler step of the interleaved execution: run the next atomic
segment of task 1 (`t = true`) or task 2 (`t = false`).  The membership
check is one segment; the blocking connect plus the cache write after the
resume is the other (the task suspends between the two). -/
def raceStep (name : String) (st : RaceState) (t : Bool) : RaceState :=
  let pc := if t then st.pc1 else st.pc2
  let next :=
    match pc with
    | TaskPC.start =>
      if name ∈ st.cacheNames then
        { st with cacheNames := st.cacheNames, connectCalls := st.connectCalls }
      else st
    | TaskPC.connecting =>
      { st with
        cacheNames :=
          if name ∈ st.cacheNames then st.cacheNames
          else st.cacheNames ++ [name],
        connectCalls := st.connectCalls + 1 }
    | TaskPC.finished => st
  let npc :=
    match pc with
    | TaskPC.start =>
      if name ∈ st.cacheNames then TaskPC.finished else TaskPC.connecting
    | TaskPC.connecting => TaskPC.finished
    | TaskPC.finished => TaskPC.finished
  if t then { next with pc1 := npc } else { next with pc2 := npc }

/-- Run a schedule of task steps from an initial state. -/
def raceRun (name : String) (sched : List Bool) (st : RaceState) : RaceState :=
  match sched with
  | [] => st
  | t :: rest => raceRun name rest (raceStep name st t)

/-- The LLDP raw payload of the concrete scenario in the spec. -/
def lldpRawC3 : LldpRaw :=
  ⟨some [("Gi0/0", ⟨[("1", ⟨[("n1",
    ⟨some "sw1", none, some "Gi1/0/1", none, none, none⟩)]⟩)]⟩)]⟩

/-- The CDP raw payload of the concrete scenario in the spec. -/
def cdpRawC3 : CdpRaw :=
  ⟨some [("1", ⟨some "Gi0/0", some "sw1", some "Gi1/0/1", [], some "cisco"⟩)]⟩

/-- Claim C3: on the concrete LLDP and CDP payloads of the spec scenario,
combined discovery for the known device succeeds with exactly one
neighbor, the LLDP record with management address defaulted to unknown
and empty platform, and a total of 1, the CDP entry being dropped as a
duplicate of the same triple. -/
theorem c3_concrete_scenario :
    discover_neighbors_combined ["rtr1"] ⟨[], 0⟩ "rtr1" none
        (ParseOutcome.ok lldpRawC3) (ParseOutcome.ok cdpRawC3)
      = (JVal.obj [("success", JVal.bool true), ("device", JVal.str "rtr1"),
          ("neighbors", JVal.arr [JVal.obj
            [("protocol", JVal.str "lldp"),
             ("local_interface", JVal.str "Gi0/0"),
             ("remote_device", JVal.str "sw1"),
             ("remote_interface", JVal.str "Gi1/0/1"),
             ("management_address", JVal.str "unknown"),
             ("platform", JVal.str "")]]),
          ("total_neighbors", JVal.nat 1)],
         ⟨[("rtr1", 0)], 1⟩,
         [NetCall.connect "rtr1",
          NetCall.parse "rtr1" "show lldp neighbors detail",
          NetCall.parse "rtr1" "show cdp neighbors detail"]) := rfl

/-- The initial state of two tasks about to call `get_connection` for a
device with no cached session. -/
def raceInit : RaceState := ⟨[], TaskPC.start, TaskPC.start, 0⟩

/-- Claim C2: the interleaving in which both tasks pass the cache
membership check before either performs the awaited blocking connect
makes the code call `device.connect` twice for one device name, not once;
both tasks complete.  The source takes no lock around the check (the
`_connection_locks` dict is created at line 29 but never used). -/
theorem c2_double_connect :
    (raceRun "rtr1" [true, false, true, false] raceInit).connectCalls = 2
    ∧ (raceRun "rtr1" [true, false, true, false] raceInit).pc1 = TaskPC.finished
    ∧ (raceRun "rtr1" [true, false, true, false] raceInit).pc2 = TaskPC.finished :=
  ⟨rfl, rfl, rfl⟩

/-- A CDP entry whose management-address dict lists 10.0.0.2 before
10.0.0.1. -/
def cdpEntryOrdA : CdpEntry :=
  ⟨some "Gi0/0", some "r2", some "Gi0/1", ["10.0.0.2", "10.0.0.1"],
   some "cisco"⟩

/-- The same CDP entry with the management-address keys supplied in the
opposite order. -/
def cdpEntryOrdB : CdpEntry :=
  ⟨some "Gi0/0", some "r2", some "Gi0/1", ["10.0.0.1", "10.0.0.2"],
   some "cisco"⟩

/-- Claim C9, counterexample: two CDP entries carrying the same set of
management addresses, supplied in different orders, normalize to records
with different management addresses, so the chosen address is not a
function of the set alone. -/
theorem c9_counterexample :
    cdpEntryOrdA.management_addresses.Perm cdpEntryOrdB.management_addresses
    ∧ (cdpExtractCombined ⟨some [("1", cdpEntryOrdA)]⟩).map
        (fun r => pyIndex r "management_address") = [some "10.0.0.2"]
    ∧ (cdpExtractCombined ⟨some [("1", cdpEntryOrdB)]⟩).map
        (fun r => pyIndex r "management_address") = [some "10.0.0.1"] :=
  ⟨List.Perm.swap _ _ _, rfl, rfl⟩

theorem pyIndex_mkCdpCombined_mgmt (e : CdpEntry) :
    pyIndex (mkCdpCombinedRecord e) "management_address"
      = some (match e.management_addresses with
              | [] => "unknown"
              | ip :: _ => ip) := rfl

/-- Claim C9, amended: in combined discovery the management address of
each normalized CDP record is the first key of the management-address
dict in the order the parse supplied it, and `"unknown"` exactly when
that dict is empty; the choice is deterministic in the supplied order
but not a function of the address set alone. -/
theorem c9_mgmt_selection (idx : List (String × CdpEntry)) :
    (cdpExtractCombined ⟨some idx⟩).map
        (fun r => pyIndex r "management_address")
      = idx.map (fun p =>
          some (match p.2.management_addresses with
                | [] => "unknown"
                | ip :: _ => ip))
    ∧ cdpExtractCombined ⟨none⟩ = [] := by
  constructor
  · induction idx with
    | nil => rfl
    | cons p rest ih =>
      simp only [cdpExtractCombined, List.map_cons] at ih ⊢
      rw [pyIndex_mkCdpCombined_mgmt]
      exact congrArg _ ih
  · rfl

/-- Claim C1: for every pair of normalized LLDP and CDP record lists, the
dedup loop on their concatenation (LLDP first) equals the first-seen scan
of the spec, keyed only by the triple of the local interface, remote
device and remote interface fields, so the triple is unique across the
output and each surviving record is an earlier input record kept intact
(output is a sublist of the input). -/
theorem c1_dedup_first_seen (lldp cdp : List NeighborRec) :
    dedupNeighbors (lldp ++ cdp) = specKeepFirst (lldp ++ cdp)
    ∧ ((dedupNeighbors (lldp ++ cdp)).map dedupKey).Nodup
    ∧ (dedupNeighbors (lldp ++ cdp)).Sublist (lldp ++ cdp) := by
  have h : dedupNeighbors (lldp ++ cdp) = keepFirstAux (lldp ++ cdp) [] := by
    simp [dedupNeighbors, dedupGo_eq_keepFirstAux]
  refine ⟨?_, ?_, ?_⟩
  · rw [h, keepFirstAux_nil_eq_specKeepFirst]
  · rw [h]
    exact (keepFirstAux_key_nodup _ _).1
  · rw [h]
    exact keepFirstAux_sublist _ _

theorem mem_concatMap {α β : Type} (f : α → List β) (l : List α) (b : β) :
    b ∈ concatMap f l ↔ ∃ a ∈ l, b ∈ f a := by
  induction l with
  | nil => simp [concatMap]
  | cons x xs ih =>
    simp only [concatMap, List.mem_append, ih, List.mem_cons]
    constructor
    · rintro (hb | ⟨a, ha, hb⟩)
      · exact ⟨x, Or.inl rfl, hb⟩
      · exact ⟨a, Or.inr ha, hb⟩
    · rintro ⟨a, (rfl | ha), hb⟩
      · exact Or.inl hb
      · exact Or.inr ⟨a, ha, hb⟩

theorem mkLldpBasicRecord_keys (li : String) (info : LldpNeighborInfo) :
    (mkLldpBasicRecord li info).map Prod.fst
      = ["protocol", "local_interface", "remote_device",
         "remote_interface"] := rfl

theorem mkCdpBasicRecord_keys (e : CdpEntry) :
    (mkCdpBasicRecord e).map Prod.fst
      = ["protocol", "local_interface", "remote_device",
         "remote_interface"] := rfl

theorem mkLldpCombinedRecord_keys (li : String) (info : LldpNeighborInfo) :
    (mkLldpCombinedRecord li info).map Prod.fst
      = ["protocol", "local_interface", "remote_device", "remote_interface",
         "management_address", "platform"] := rfl

theorem mkCdpCombinedRecord_keys (e : CdpEntry) :
    (mkCdpCombinedRecord e).map Prod.fst
      = ["protocol", "local_interface", "remote_device", "remote_interface",
         "management_address", "platform"] := rfl

/-- Claim C10: every record produced by the single-protocol extraction
loops carries exactly the four fields protocol, local interface, remote
device and remote interface, while the records of combined discovery
additionally carry management address and platform; the two extra fields
are never produced by the single-protocol loops. -/
theorem c10_record_fields (lraw lraw2 : LldpRaw) (craw craw2 : CdpRaw)
    (r1 r2 r3 r4 : NeighborRec)
    (h1 : r1 ∈ lldpExtractBasic lraw) (h2 : r2 ∈ cdpExtractBasic craw)
    (h3 : r3 ∈ lldpExtractCombined lraw2)
    (h4 : r4 ∈ cdpExtractCombined craw2) :
    r1.map Prod.fst
      = ["protocol", "local_interface", "remote_device", "remote_interface"]
    ∧ r2.map Prod.fst
      = ["protocol", "local_interface", "remote_device", "remote_interface"]
    ∧ r3.map Prod.fst
      = ["protocol", "local_interface", "remote_device", "remote_interface",
         "management_address", "platform"]
    ∧ r4.map Prod.fst
      = ["protocol", "local_interface", "remote_device", "remote_interface",
         "management_address", "platform"] := by
  refine ⟨?_, ?_, ?_, ?_⟩
  · obtain ⟨ifs⟩ := lraw
    cases ifs with
    | none => simp [lldpExtractBasic] at h1
    | some intfs =>
      simp only [lldpExtractBasic, mem_concatMap, List.mem_map] at h1
      obtain ⟨li, _, pd, _, ni, _, rfl⟩ := h1
      exact mkLldpBasicRecord_keys _ _
  · obtain ⟨idx⟩ := craw
    cases idx with
    | none => simp [cdpExtractBasic] at h2
    | some entries =>
      simp only [cdpExtractBasic, List.mem_map] at h2
      obtain ⟨e, _, rfl⟩ := h2
      exact mkCdpBasicRecord_keys _
  · obtain ⟨ifs⟩ := lraw2
    cases ifs with
    | none => simp [lldpExtractCombined] at h3
    | some intfs =>
      simp only [lldpExtractCombined, mem_concatMap, List.mem_map] at h3
      obtain ⟨li, _, pd, _, ni, _, rfl⟩ := h3
      exact mkLldpCombinedRecord_keys _ _
  · obtain ⟨idx⟩ := craw2
    cases idx with
    | none => simp [cdpExtractCombined] at h4
    | some entries =>
      simp only [cdpExtractCombined, List.mem_map] at h4
      obtain ⟨e, _, rfl⟩ := h4
      exact mkCdpCombinedRecord_keys _

/-- Witness for C10 at the concrete payloads of the spec scenario. -/
theorem c10_record_fields_witness :
    [("protocol", some "lldp"), ("local_interface", some "Gi0/0"),
     ("remote_device", some "sw1"),
     ("remote_interface", some "Gi1/0/1")].map Prod.fst
      = ["protocol", "local_interface", "remote_device", "remote_interface"] :=
  (c10_record_fields lldpRawC3 lldpRawC3 cdpRawC3 cdpRawC3
    (mkLldpBasicRecord "Gi0/0" ⟨some "sw1", none, some "Gi1/0/1", none, none,
      none⟩)
    (mkCdpBasicRecord ⟨some "Gi0/0", some "sw1", some "Gi1/0/1", [],
      some "cisco"⟩)
    (mkLldpCombinedRecord "Gi0/0" ⟨some "sw1", none, some "Gi1/0/1", none,
      none, none⟩)
    (mkCdpCombinedRecord ⟨some "Gi0/0", some "sw1", some "Gi1/0/1", [],
      some "cisco"⟩)
    (by decide) (by decide) (by decide) (by decide)).1

/-- Claim C4: for a known, connectable device, combined discovery always
succeeds, returning the dedup of whatever each guarded protocol block
contributed; the empty-parse signal and any other per-protocol fault
contribute zero records for that protocol only, and a failure payload is
returned exactly when the device has no cached session and the connect
raises — never alongside data. -/
theorem c4_fault_isolation (inv : List String) (st : ConnState)
    (name : String) (lr : ParseOutcome LldpRaw) (cr : ParseOutcome CdpRaw)
    (hknown : name ∈ inv) :
    ((discover_neighbors_combined inv st name none lr cr).1
      = JVal.obj [("success", JVal.bool true), ("device", JVal.str name),
          ("neighbors", JVal.arr
            ((dedupNeighbors
                (lldpNeighborsOf lr ++ cdpNeighborsOf cr)).map recToJ)),
          ("total_neighbors", JVal.nat
            (dedupNeighbors
              (lldpNeighborsOf lr ++ cdpNeighborsOf cr)).length)])
    ∧ lldpNeighborsOf ParseOutcome.emptyParse = []
    ∧ cdpNeighborsOf ParseOutcome.emptyParse = []
    ∧ (∀ msg, lldpNeighborsOf (ParseOutcome.fault msg) = []
        ∧ cdpNeighborsOf (ParseOutcome.fault msg) = [])
    ∧ (∀ cf : Option String,
        (∃ e, (discover_neighbors_combined inv st name cf lr cr).1
            = JVal.obj [("success", JVal.bool false), ("error", JVal.str e)])
          ↔ (dictLookup name st.connections = none ∧ cf ≠ none)) := by
  refine ⟨?_, rfl, rfl, fun msg => ⟨rfl, rfl⟩, ?_⟩
  · cases hm : dictLookup name st.connections <;>
      simp [discover_neighbors_combined, get_connection, hm, hknown]
  · intro cf
    cases hm : dictLookup name st.connections with
    | none =>
      cases cf with
      | none => simp [discover_neighbors_combined, get_connection, hm, hknown]
      | some e => simp [discover_neighbors_combined, get_connection, hm, hknown]
    | some s => simp [discover_neighbors_combined, get_connection, hm, hknown]

/-- A CDP payload carrying two valid entries with distinct link triples. -/
def cdpRawTwo : CdpRaw :=
  ⟨some [("1", ⟨some "Gi0/0", some "r2", some "Gi0/1", [], some "iosv"⟩),
         ("2", ⟨some "Gi0/1", some "r3", some "Gi0/2", [], some "iosv"⟩)]⟩

/-- Witness for C4: LLDP signals empty-parse and CDP yields two valid
records; the combined result is a success carrying exactly those two
records. -/
theorem c4_fault_isolation_witness :
    "r1" ∈ ["r1"]
    ∧ (discover_neighbors_combined ["r1"] ⟨[], 0⟩ "r1" none
        ParseOutcome.emptyParse (ParseOutcome.ok cdpRawTwo)).1
      = JVal.obj [("success", JVal.bool true), ("device", JVal.str "r1"),
          ("neighbors", JVal.arr
            [JVal.obj [("protocol", JVal.str "cdp"),
               ("local_interface", JVal.str "Gi0/0"),
               ("remote_device", JVal.str "r2"),
               ("remote_interface", JVal.str "Gi0/1"),
               ("management_address", JVal.str "unknown"),
               ("platform", JVal.str "iosv")],
             JVal.obj [("protocol", JVal.str "cdp"),
               ("local_interface", JVal.str "Gi0/1"),
               ("remote_device", JVal.str "r3"),
               ("remote_interface", JVal.str "Gi0/2"),
               ("management_address", JVal.str "unknown"),
               ("platform", JVal.str "iosv")]]),
          ("total_neighbors", JVal.nat 2)] :=
  ⟨by decide, by
    rw [(c4_fault_isolation ["r1"] ⟨[], 0⟩ "r1" ParseOutcome.emptyParse
      (ParseOutcome.ok cdpRawTwo) (by decide)).1]
    rfl⟩

/-- Claim C6: for a known device whose structured parse of show version
signals empty-parse, the operation falls back to the raw execute output
and returns a success payload carrying the raw text and the fallback
note; the empty-parse signal never surfaces as a failure. -/
theorem c6_raw_fallback (inv : List String) (st : ConnState) (name : String)
    (raw : String) (hknown : name ∈ inv) :
    (show_version inv st name none ParseOutcome.emptyParse
        (Except.ok raw)).1
      = JVal.obj [("success", JVal.bool true),
          ("data", JVal.obj [("raw_output", JVal.str raw)]),
          ("note", JVal.str "Could not parse, returning raw output")] := by
  cases hm : dictLookup name st.connections <;>
    simp [show_version, get_connection, hm, hknown]

/-- Witness for C6 on a concrete device and raw output. -/
theorem c6_raw_fallback_witness :
    (show_version ["r1"] ⟨[], 0⟩ "r1" none ParseOutcome.emptyParse
        (Except.ok "Cisco IOS, Version 15.9")).1
      = JVal.obj [("success", JVal.bool true),
          ("data", JVal.obj
            [("raw_output", JVal.str "Cisco IOS, Version 15.9")]),
          ("note", JVal.str "Could not parse, returning raw output")] :=
  c6_raw_fallback ["r1"] ⟨[], 0⟩ "r1" "Cisco IOS, Version 15.9" (by decide)

/-- Claim C8: for a device name absent from the inventory, each
device-taking operation returns its device-not-found failure immediately,
performs no network call at all, and leaves the connection cache
unchanged. -/
theorem c8_unknown_device (inv : List String) (st : ConnState)
    (name : String) (cf : Option String) (p : ParseOutcome JVal)
    (ex : Except String String) (lp : ParseOutcome LldpRaw)
    (cp : ParseOutcome CdpRaw) (h : name ∉ inv) :
    show_version inv st name cf p ex
      = (JVal.obj [("error", JVal.str ("Device not found: " ++ name))],
         st, [])
    ∧ discover_neighbors_lldp inv st name cf lp
      = (JVal.obj [("success", JVal.bool false),
          ("error", JVal.str ("Device not found: " ++ name))], st, [])
    ∧ discover_neighbors_cdp inv st name cf cp
      = (JVal.obj [("success", JVal.bool false),
          ("error", JVal.str ("Device not found: " ++ name))], st, [])
    ∧ discover_neighbors_combined inv st name cf lp cp
      = (JVal.obj [("success", JVal.bool false),
          ("error", JVal.str ("Device not found: " ++ name))], st, []) := by
  refine ⟨?_, ?_, ?_, ?_⟩ <;>
    simp [show_version, discover_neighbors_lldp, discover_neighbors_cdp,
      discover_neighbors_combined, h]

/-- Witness for C8 at a concrete unknown device name. -/
theorem c8_unknown_device_witness :
    show_version ["r1"] ⟨[], 0⟩ "r9" none (ParseOutcome.ok JVal.null)
        (Except.ok "")
      = (JVal.obj [("error", JVal.str "Device not found: r9")], ⟨[], 0⟩, []) :=
  (c8_unknown_device ["r1"] ⟨[], 0⟩ "r9" none (ParseOutcome.ok JVal.null)
    (Except.ok "") ParseOutcome.emptyParse ParseOutcome.emptyParse
    (by decide)).1

theorem dictLookup_append_some {β : Type} (k : String)
    (l l2 : List (String × β)) (v : β) (h : dictLookup k l = some v) :
    dictLookup k (l ++ l2) = some v := by
  induction l with
  | nil => simp [dictLookup] at h
  | cons q rest ih =>
    obtain ⟨a, b⟩ := q
    simp only [dictLookup] at h
    simp only [List.cons_append, dictLookup]
    by_cases ha : a = k
    · rw [if_pos ha] at h ⊢
      exact h
    · rw [if_neg ha] at h ⊢
      exact ih h

theorem dictLookup_append_of_none {β : Type} (k : String)
    (l : List (String × β)) (v : β) (h : dictLookup k l = none) :
    dictLookup k (l ++ [(k, v)]) = some v := by
  induction l with
  | nil => simp [dictLookup]
  | cons q rest ih =>
    obtain ⟨a, b⟩ := q
    simp only [dictLookup] at h
    simp only [List.cons_append, dictLookup]
    by_cases ha : a = k
    · rw [if_pos ha] at h
      exact absurd h (Option.some_ne_none b)
    · rw [if_neg ha] at h ⊢
      exact ih h

theorem dictLookup_remove_ne {β : Type} (k k2 : String)
    (l : List (String × β)) (h : k ≠ k2) :
    dictLookup k (dictRemove k2 l) = dictLookup k l := by
  induction l with
  | nil => rfl
  | cons q rest ih =>
    obtain ⟨a, b⟩ := q
    by_cases ha2 : a = k2
    · have hak : ¬ a = k := by
        intro hh
        exact h (hh ▸ ha2)
      have hfc : dictRemove k2 ((a, b) :: rest) = dictRemove k2 rest := by
        simp [dictRemove, List.filter_cons, ha2]
      rw [hfc, ih]
      simp [dictLookup, hak]
    · have hfc : dictRemove k2 ((a, b) :: rest)
          = (a, b) :: dictRemove k2 rest := by
        simp [dictRemove, List.filter_cons, ha2]
      rw [hfc]
      simp only [dictLookup]
      by_cases ha : a = k
      · rw [if_pos ha, if_pos ha]
      · rw [if_neg ha, if_neg ha]
        exact ih

theorem dictLookup_remove_self {β : Type} (k : String)
    (l : List (String × β)) : dictLookup k (dictRemove k l) = none := by
  induction l with
  | nil => rfl
  | cons q rest ih =>
    obtain ⟨a, b⟩ := q
    by_cases ha : a = k
    · have hfc : dictRemove k ((a, b) :: rest) = dictRemove k rest := by
        simp [dictRemove, List.filter_cons, ha]
      rw [hfc]
      exact ih
    · have hfc : dictRemove k ((a, b) :: rest)
          = (a, b) :: dictRemove k rest := by
        simp [dictRemove, List.filter_cons, ha]
      rw [hfc]
      simp only [dictLookup, if_neg ha]
      exact ih

theorem dictLookup_none_iff {β : Type} (k : String) (l : List (String × β)) :
    dictLookup k l = none ↔ k ∉ l.map Prod.fst := by
  induction l with
  | nil => simp [dictLookup]
  | cons q rest ih =>
    obtain ⟨a, b⟩ := q
    simp only [dictLookup, List.map_cons, List.mem_cons]
    by_cases ha : a = k
    · subst ha
      simp
    · rw [if_neg ha, ih]
      constructor
      · rintro hk (h | h)
        · exact ha h.symm
        · exact hk h
      · intro hk h
        exact hk (Or.inr h)

theorem lookup_runOps_stable (st : ConnState) (name : String) (s : Nat)
    (ops : List MgrOp) (h1 : dictLookup name st.connections = some s)
    (h2 : ∀ op ∈ ops, op ≠ MgrOp.cleanup name) :
    dictLookup name (runOps st ops).connections = some s := by
  induction ops generalizing st with
  | nil => exact h1
  | cons op rest ih =>
    have hop : op ≠ MgrOp.cleanup name := h2 op (List.mem_cons_self _ _)
    have h2r : ∀ o ∈ rest, o ≠ MgrOp.cleanup name :=
      fun o ho => h2 o (List.mem_cons_of_mem _ ho)
    refine ih _ ?_ h2r
    cases op with
    | get n2 =>
      cases hm : dictLookup n2 st.connections with
      | some s2 => simpa [mgrStep, get_connection, hm] using h1
      | none =>
        simp only [mgrStep, get_connection, hm]
        exact dictLookup_append_some _ _ _ _ h1
    | cleanup n2 =>
      have hne : name ≠ n2 := by
        intro hh
        exact hop (by rw [hh])
      cases hm : dictLookup n2 st.connections with
      | some s2 =>
        simp only [mgrStep, cleanup_connection, hm]
        rw [dictLookup_remove_ne _ _ _ hne]
        exact h1
      | none => simpa [mgrStep, cleanup_connection, hm] using h1

theorem keysNodup_runOps (st : ConnState) (ops : List MgrOp)
    (h : (st.connections.map Prod.fst).Nodup) :
    ((runOps st ops).connections.map Prod.fst).Nodup := by
  induction ops generalizing st with
  | nil => exact h
  | cons op rest ih =>
    refine ih _ ?_
    cases op with
    | get n2 =>
      cases hm : dictLookup n2 st.connections with
      | some s2 => simpa [mgrStep, get_connection, hm] using h
      | none =>
        have hnotin : n2 ∉ st.connections.map Prod.fst :=
          (dictLookup_none_iff _ _).mp hm
        simp only [mgrStep, get_connection, hm, List.map_append]
        rw [List.nodup_append]
        refine ⟨h, List.nodup_singleton _, ?_⟩
        intro a ha hb
        simp only [List.map_cons, List.map_nil, List.mem_singleton] at hb
        subst hb
        exact hnotin ha
    | cleanup n2 =>
      cases hm : dictLookup n2 st.connections with
      | some s2 =>
        simp only [mgrStep, cleanup_connection, hm]
        have hsub : (dictRemove n2 st.connections).Sublist st.connections :=
          List.filter_sublist _
        exact h.sublist (hsub.map Prod.fst)
      | none => simpa [mgrStep, cleanup_connection, hm] using h

/-- Claim C7: sequentially, a cached session for a name persists through
any calls that are not a cleanup for that name, and `get_connection` then
returns exactly that session with no network call; on a miss it connects
once and stores the fresh session under the name; `cleanup_connection`
leaves no entry for the name (a no-op when none exists) and the cache
never holds two sessions for one name. -/
theorem c7_session_cache (st : ConnState) (name : String) (s : Nat)
    (ops : List MgrOp) (hcached : dictLookup name st.connections = some s)
    (hnoclean : ∀ op ∈ ops, op ≠ MgrOp.cleanup name) :
    dictLookup name (runOps st ops).connections = some s
    ∧ get_connection (runOps st ops) name none
      = (Except.ok s, runOps st ops, [])
    ∧ (∀ (st2 : ConnState) (s2 : Nat),
        dictLookup name st2.connections = some s2 →
          get_connection st2 name none = (Except.ok s2, st2, []))
    ∧ (∀ st2 : ConnState, dictLookup name st2.connections = none →
        get_connection st2 name none
          = (Except.ok st2.nextId,
             ⟨st2.connections ++ [(name, st2.nextId)], st2.nextId + 1⟩,
             [NetCall.connect name])
        ∧ dictLookup name (st2.connections ++ [(name, st2.nextId)])
          = some st2.nextId)
    ∧ (∀ st2 : ConnState,
        dictLookup name (cleanup_connection st2 name).1.connections = none)
    ∧ (∀ st2 : ConnState, dictLookup name st2.connections = none →
        cleanup_connection st2 name = (st2, []))
    ∧ ((st.connections.map Prod.fst).Nodup →
        ((runOps st ops).connections.map Prod.fst).Nodup) := by
  have hstable := lookup_runOps_stable st name s ops hcached hnoclean
  refine ⟨hstable, ?_, ?_, ?_, ?_, ?_, keysNodup_runOps st ops⟩
  · simp [get_connection, hstable]
  · intro st2 s2 h2
    simp [get_connection, h2]
  · intro st2 h2
    refine ⟨by simp [get_connection, h2], ?_⟩
    exact dictLookup_append_of_none _ _ _ h2
  · intro st2
    cases hm : dictLookup name st2.connections with
    | some s2 =>
      simp only [cleanup_connection, hm]
      exact dictLookup_remove_self _ _
    | none => simp [cleanup_connection, hm]
  · intro st2 h2
    simp [cleanup_connection, h2]

/-- Witness for C7: a cached session for device r1 survives a get and a
cleanup for the unrelated device r2. -/
theorem c7_session_cache_witness :
    dictLookup "r1"
      (runOps ⟨[("r1", 0)], 1⟩
        [MgrOp.get "r2", MgrOp.cleanup "r2"]).connections = some 0 :=
  (c7_session_cache ⟨[("r1", 0)], 1⟩ "r1" 0
    [MgrOp.get "r2", MgrOp.cleanup "r2"] rfl (by decide)).1

end NetworkMCP
